import Mathlib

/-!
Formal model of the PDF detection pipeline of `backend/api/pdf_processor.py`
(class `PDFProcessor`).

Modelling conventions:
* A rasterized page image (PIL `Image`) is a pixel buffer with a width, a
  height and a pixel function; `crop` follows PIL's box contract (left, top,
  right, bottom) for in-bounds boxes.
* A YOLO `Boxes` data row `[x1, y1, x2, y2, conf, cls]` (or
  `[x1, y1, x2, y2, track_id, conf, cls]` with the optional 7th tracking
  column) is a `Detection` record; a results object (`results[0].boxes`,
  possibly `None`) is a `List Detection`, the empty list standing for both
  `None` and a zero-length `Boxes`.
* Machine floats are modelled by `ℚ`; Python `round(x, n)` is modelled by
  `roundTo n` (ties resolved upward; every property proved here is
  independent of the tie rule).
* External collaborators (the YOLO predictor, the OpenCV stages) enter as
  oracles: the predictor is a function from the call index and the image to
  a detection list, and each OpenCV stage is a fallible image transform
  (`Except String`), a raised exception being an `error` value.
-/

/-- A rasterized page image: width, height, and pixel buffer. -/
structure PILImage where
  width : Nat
  height : Nat
  pixel : Nat → Nat → Nat

/-- PIL `Image.crop((left, top, right, bottom))` for an in-bounds box:
the result has size `(right - left, bottom - top)` and its pixel `(x, y)`
is the source pixel `(x + left, y + top)`. -/
def PILImage.crop (img : PILImage) (left top right bottom : Nat) : PILImage :=
  { width := right - left
    height := bottom - top
    pixel := fun x y => img.pixel (x + left) (y + top) }

/-- One detection row of a YOLO `Boxes` data tensor:
`[x1, y1, x2, y2, conf, cls]`, or `[x1, y1, x2, y2, track_id, conf, cls]`
when the optional tracking-id column is present. -/
structure Detection where
  x1 : ℚ
  y1 : ℚ
  x2 : ℚ
  y2 : ℚ
  track_id : Option ℚ
  conf : ℚ
  cls : ℤ
deriving DecidableEq, Repr

/-- `PDFProcessor._adjust_detection_coordinates` (pdf_processor.py lines
257-278): if the boxes are `None` or empty, return the results unchanged;
otherwise add `x_offset` to columns `x1, x2` and `y_offset` to columns
`y1, y2` of every data row, leaving the remaining columns as they are. -/
def _adjust_detection_coordinates (dets : List Detection) (x_offset y_offset : ℤ) :
    List Detection :=
  if dets.isEmpty then dets
  else dets.map (fun d =>
    { d with
      x1 := d.x1 + (x_offset : ℚ)
      y1 := d.y1 + (y_offset : ℚ)
      x2 := d.x2 + (x_offset : ℚ)
      y2 := d.y2 + (y_offset : ℚ) })

/-- `PDFProcessor._filter_detections_by_class` (lines 280-307): if the boxes
are `None` or empty, return the results unchanged; otherwise keep the rows
whose class id is in `allowed_classes` (`np.isin`); when no row matches, the
boxes become `None` (the empty set). -/
def _filter_detections_by_class (dets : List Detection) (allowed_classes : List ℤ) :
    List Detection :=
  if dets.isEmpty then dets
  else
    let kept := dets.filter (fun d => decide (d.cls ∈ allowed_classes))
    if kept.isEmpty then [] else kept

/-- `PDFProcessor._merge_detections` (lines 309-327): if either results
object has `None`/empty boxes, return the other; otherwise concatenate the
two data tensors (`torch.cat`, first then second). -/
def _merge_detections (results1 results2 : List Detection) : List Detection :=
  if results1.isEmpty then results2
  else if results2.isEmpty then results1
  else results1 ++ results2

/-- The class-id set of the model's fixed label mapping
`{0: signature, 1: stamp, 2: qr}` (the `category_map` of line 532 and the
`colors` map of lines 179-183). -/
def all_known_classes : List ℤ := [0, 1, 2]

lemma adjust_eq_map (dets : List Detection) (dx dy : ℤ) :
    _adjust_detection_coordinates dets dx dy
      = dets.map (fun d =>
          { d with
            x1 := d.x1 + (dx : ℚ)
            y1 := d.y1 + (dy : ℚ)
            x2 := d.x2 + (dx : ℚ)
            y2 := d.y2 + (dy : ℚ) }) := by
  unfold _adjust_detection_coordinates
  cases dets with
  | nil => simp
  | cons d ds => simp

lemma filter_eq_filter (dets : List Detection) (allowed : List ℤ) :
    _filter_detections_by_class dets allowed
      = dets.filter (fun d => decide (d.cls ∈ allowed)) := by
  unfold _filter_detections_by_class
  cases h : dets.isEmpty with
  | true =>
    simp only [if_pos rfl]
    rw [List.isEmpty_iff] at h
    simp [h]
  | false =>
    simp only [Bool.false_eq_true, if_false]
    cases hk : (dets.filter (fun d => decide (d.cls ∈ allowed))).isEmpty with
    | true =>
      rw [List.isEmpty_iff] at hk
      simp [hk]
    | false => simp

/-- C2: `merge` returns the other set unchanged when either input is empty,
concatenates the two sets (preserving every detection record, no
deduplication) when both are non-empty — hence the merged length is
`len(A) + len(B)` in that case — and merging a merged set with the empty
set is the identity. -/
theorem C2_merge (A B : List Detection) (a b : Detection) (as bs : List Detection) :
    _merge_detections [] B = B
    ∧ _merge_detections A [] = A
    ∧ _merge_detections (a :: as) (b :: bs) = (a :: as) ++ (b :: bs)
    ∧ (_merge_detections (a :: as) (b :: bs)).length
        = (a :: as).length + (b :: bs).length
    ∧ _merge_detections (_merge_detections A B) [] = _merge_detections A B := by
  refine ⟨rfl, ?_, rfl, by simp [_merge_detections]; omega, ?_⟩
  · unfold _merge_detections
    cases A <;> simp
  · unfold _merge_detections
    cases A <;> cases B <;> simp

/-- C4: translation adds `(dx, dy)` to both corner points of every box and
leaves the confidence, class and optional tracking-id fields unchanged;
translating by `(dx, dy)` then `(-dx, -dy)` reproduces the original set, and
translating the empty set is a no-op. -/
theorem C4_translate (dets : List Detection) (dx dy : ℤ) :
    (_adjust_detection_coordinates dets dx dy).length = dets.length
    ∧ (∀ i (hi : i < dets.length)
         (ho : i < (_adjust_detection_coordinates dets dx dy).length),
        ((_adjust_detection_coordinates dets dx dy).get ⟨i, ho⟩).x1
            = (dets.get ⟨i, hi⟩).x1 + (dx : ℚ)
        ∧ ((_adjust_detection_coordinates dets dx dy).get ⟨i, ho⟩).y1
            = (dets.get ⟨i, hi⟩).y1 + (dy : ℚ)
        ∧ ((_adjust_detection_coordinates dets dx dy).get ⟨i, ho⟩).x2
            = (dets.get ⟨i, hi⟩).x2 + (dx : ℚ)
        ∧ ((_adjust_detection_coordinates dets dx dy).get ⟨i, ho⟩).y2
            = (dets.get ⟨i, hi⟩).y2 + (dy : ℚ)
        ∧ ((_adjust_detection_coordinates dets dx dy).get ⟨i, ho⟩).conf
            = (dets.get ⟨i, hi⟩).conf
        ∧ ((_adjust_detection_coordinates dets dx dy).get ⟨i, ho⟩).cls
            = (dets.get ⟨i, hi⟩).cls
        ∧ ((_adjust_detection_coordinates dets dx dy).get ⟨i, ho⟩).track_id
            = (dets.get ⟨i, hi⟩).track_id)
    ∧ _adjust_detection_coordinates
        (_adjust_detection_coordinates dets dx dy) (-dx) (-dy) = dets
    ∧ _adjust_detection_coordinates ([] : List Detection) dx dy = [] := by
  refine ⟨by rw [adjust_eq_map]; simp, ?_, ?_, rfl⟩
  · intro i hi ho
    simp only [List.get_eq_getElem]
    simp [adjust_eq_map]
  · rw [adjust_eq_map, adjust_eq_map, List.map_map]
    have : ∀ d : Detection,
        ({ d with
            x1 := d.x1 + (dx : ℚ) + ((-dx : ℤ) : ℚ)
            y1 := d.y1 + (dy : ℚ) + ((-dy : ℤ) : ℚ)
            x2 := d.x2 + (dx : ℚ) + ((-dx : ℤ) : ℚ)
            y2 := d.y2 + (dy : ℚ) + ((-dy : ℤ) : ℚ) } : Detection) = d := by
      intro d
      have hx : ∀ q : ℚ, q + (dx : ℚ) + ((-dx : ℤ) : ℚ) = q := by
        intro q; push_cast; ring
      have hy : ∀ q : ℚ, q + (dy : ℚ) + ((-dy : ℤ) : ℚ) = q := by
        intro q; push_cast; ring
      cases d
      simp [hx, hy]
    calc dets.map _ = dets.map id := List.map_congr_left (fun d _ => this d)
      _ = dets := List.map_id dets

/-- C4 witness: a concrete translation by `(3, -2)`, checked on a one-element
set. -/
theorem C4_translate_witness :
    ((0 : Nat) < ([⟨(1 : ℚ), 2, 5, 7, none, 9/10, 0⟩] : List Detection).length)
    ∧ _adjust_detection_coordinates
        (_adjust_detection_coordinates
          [⟨(1 : ℚ), 2, 5, 7, none, 9/10, 0⟩] 3 (-2)) (-3) 2
      = [⟨(1 : ℚ), 2, 5, 7, none, 9/10, 0⟩] := by
  exact ⟨by decide,
    (C4_translate [⟨(1 : ℚ), 2, 5, 7, none, 9/10, 0⟩] 3 (-2)).2.2.1⟩

/-- C5: class filtering keeps exactly the detections whose class id is in
the allowed list (an empty result, not an error, when nothing matches); the
empty allowed list always yields the empty set, and filtering by all known
classes is the identity on sets drawn from the known label set. -/
theorem C5_filter (s : List Detection) (allowed : List ℤ) :
    _filter_detections_by_class s allowed
        = s.filter (fun d => decide (d.cls ∈ allowed))
    ∧ _filter_detections_by_class s [] = []
    ∧ ((∀ d ∈ s, d.cls ∉ allowed) → _filter_detections_by_class s allowed = [])
    ∧ ((∀ d ∈ s, d.cls ∈ all_known_classes) →
        _filter_detections_by_class s all_known_classes = s) := by
  refine ⟨filter_eq_filter s allowed, ?_, ?_, ?_⟩
  · rw [filter_eq_filter]
    simp
  · intro h
    rw [filter_eq_filter]
    rw [List.filter_eq_nil_iff]
    intro d hd
    simpa using h d hd
  · intro h
    rw [filter_eq_filter]
    rw [List.filter_eq_self]
    intro d hd
    simpa using h d hd

/-- C5 witness: a mixed two-class set, filtered by the empty list, by a
non-matching list, and by the full known-class list. -/
theorem C5_filter_witness :
    (∀ d ∈ ([⟨(0 : ℚ), 0, 1, 1, none, 1/2, 0⟩,
             ⟨(2 : ℚ), 2, 3, 3, none, 3/4, 2⟩] : List Detection),
        d.cls ∉ ([5] : List ℤ))
    ∧ (∀ d ∈ ([⟨(0 : ℚ), 0, 1, 1, none, 1/2, 0⟩,
               ⟨(2 : ℚ), 2, 3, 3, none, 3/4, 2⟩] : List Detection),
        d.cls ∈ all_known_classes)
    ∧ _filter_detections_by_class
        [⟨(0 : ℚ), 0, 1, 1, none, 1/2, 0⟩,
         ⟨(2 : ℚ), 2, 3, 3, none, 3/4, 2⟩] [] = []
    ∧ _filter_detections_by_class
        [⟨(0 : ℚ), 0, 1, 1, none, 1/2, 0⟩,
         ⟨(2 : ℚ), 2, 3, 3, none, 3/4, 2⟩] [5] = []
    ∧ _filter_detections_by_class
        [⟨(0 : ℚ), 0, 1, 1, none, 1/2, 0⟩,
         ⟨(2 : ℚ), 2, 3, 3, none, 3/4, 2⟩] all_known_classes
      = [⟨(0 : ℚ), 0, 1, 1, none, 1/2, 0⟩,
         ⟨(2 : ℚ), 2, 3, 3, none, 3/4, 2⟩] := by
  refine ⟨by decide, by decide, ?_, ?_, ?_⟩
  · exact (C5_filter [⟨(0 : ℚ), 0, 1, 1, none, 1/2, 0⟩,
      ⟨(2 : ℚ), 2, 3, 3, none, 3/4, 2⟩] []).2.1
  · exact (C5_filter [⟨(0 : ℚ), 0, 1, 1, none, 1/2, 0⟩,
      ⟨(2 : ℚ), 2, 3, 3, none, 3/4, 2⟩] [5]).2.2.1 (by decide)
  · exact (C5_filter [⟨(0 : ℚ), 0, 1, 1, none, 1/2, 0⟩,
      ⟨(2 : ℚ), 2, 3, 3, none, 3/4, 2⟩] all_known_classes).2.2.2 (by decide)

/-- `PDFProcessor._extract_bottom_right_corner` (lines 235-255):
`corner_width = int(width * corner_size)` and
`corner_height = int(height * corner_size)` (Python `int()` truncation of a
non-negative value, i.e. the floor), `x_offset = width - corner_width`,
`y_offset = height - corner_height`, and the PIL crop box is
`(x_offset, y_offset, width, height)`. The model covers the in-bounds crop
case `0 ≤ corner_size ≤ 1` of PIL's crop contract. -/
def _extract_bottom_right_corner (image : PILImage) (corner_size : ℚ) :
    PILImage × ℕ × ℕ :=
  let corner_width : ℕ := (⌊(image.width : ℚ) * corner_size⌋).toNat
  let corner_height : ℕ := (⌊(image.height : ℚ) * corner_size⌋).toNat
  let x_offset := image.width - corner_width
  let y_offset := image.height - corner_height
  (image.crop x_offset y_offset image.width image.height, (x_offset, y_offset))

/-- The default `corner_size` argument (0.10, i.e. 10%) of
`_extract_bottom_right_corner` and `_detect_on_bottom_right_corner`. -/
def default_corner_size : ℚ := 1/10

lemma floor_frac_le (n : ℕ) (f : ℚ) (hf0 : 0 ≤ f) (hf1 : f ≤ 1) :
    (⌊(n : ℚ) * f⌋).toNat ≤ n := by
  have h1 : (n : ℚ) * f ≤ (n : ℚ) * 1 :=
    mul_le_mul_of_nonneg_left hf1 (by positivity)
  have h2 : ⌊(n : ℚ) * f⌋ ≤ ⌊((n : ℚ))⌋ := Int.floor_le_floor (by simpa using h1)
  have h3 : ⌊((n : ℚ))⌋ = (n : ℤ) := Int.floor_natCast n
  omega

/-- C3: corner extraction crops the bottom-right region of
integer-truncated size `(⌊W*f⌋, ⌊H*f⌋)` with offsets
`x_offset = W - ⌊W*f⌋` and `y_offset = H - ⌊H*f⌋`; offset plus crop size
reaches the original bottom-right corner `(W, H)`, every crop pixel comes
from the source shifted by the offsets, and the default fraction is 0.10. -/
theorem C3_extract_corner (image : PILImage) (f : ℚ)
    (hf0 : 0 ≤ f) (hf1 : f ≤ 1) :
    ((_extract_bottom_right_corner image f).1).width
        = (⌊(image.width : ℚ) * f⌋).toNat
    ∧ ((_extract_bottom_right_corner image f).1).height
        = (⌊(image.height : ℚ) * f⌋).toNat
    ∧ (_extract_bottom_right_corner image f).2.1
        = image.width - (⌊(image.width : ℚ) * f⌋).toNat
    ∧ (_extract_bottom_right_corner image f).2.2
        = image.height - (⌊(image.height : ℚ) * f⌋).toNat
    ∧ (_extract_bottom_right_corner image f).2.1
        + ((_extract_bottom_right_corner image f).1).width = image.width
    ∧ (_extract_bottom_right_corner image f).2.2
        + ((_extract_bottom_right_corner image f).1).height = image.height
    ∧ (∀ x y, ((_extract_bottom_right_corner image f).1).pixel x y
        = image.pixel (x + (_extract_bottom_right_corner image f).2.1)
                      (y + (_extract_bottom_right_corner image f).2.2))
    ∧ default_corner_size = 1/10 := by
  have hw := floor_frac_le image.width f hf0 hf1
  have hh := floor_frac_le image.height f hf0 hf1
  simp only [_extract_bottom_right_corner, PILImage.crop]
  refine ⟨?_, ?_, ?_, ?_, ?_, ?_, ?_, ?_⟩ <;>
    first
    | omega
    | trivial
    | (intro x y; trivial)

/-- A constant test image, 100×80 pixels. -/
def test_img : PILImage := ⟨100, 80, fun _ _ => 0⟩

/-- C3 witness: the default fraction on a 100×80 image yields a 10×8 corner
crop at offset (90, 72). -/
theorem C3_extract_corner_witness :
    (0 : ℚ) ≤ 1/10 ∧ (1/10 : ℚ) ≤ 1
    ∧ ((_extract_bottom_right_corner test_img (1/10)).1).width = 10
    ∧ ((_extract_bottom_right_corner test_img (1/10)).1).height = 8
    ∧ (_extract_bottom_right_corner test_img (1/10)).2.1 = 90
    ∧ (_extract_bottom_right_corner test_img (1/10)).2.2 = 72 := by
  have h := C3_extract_corner test_img (1/10) (by norm_num) (by norm_num)
  have hfw : (⌊(test_img.width : ℚ) * (1/10)⌋ : ℤ) = 10 := by
    norm_num [test_img]
  have hfh : (⌊(test_img.height : ℚ) * (1/10)⌋ : ℤ) = 8 := by
    norm_num [test_img]
  refine ⟨by norm_num, by norm_num, ?_, ?_, ?_, ?_⟩
  · rw [h.1, hfw]; rfl
  · rw [h.2.1, hfh]; rfl
  · rw [h.2.2.1, hfw]; rfl
  · rw [h.2.2.2.1, hfh]; rfl

/-- The OpenCV collaborators used by `preprocess_image` as fallible image
transforms: conversion into OpenCV format (`np.array` + `cv2.cvtColor`,
lines 73-78), the CLAHE, bilateral-filter, adaptive-threshold and
sharpening stages, and the conversion back to PIL RGB (lines 153-155).
A raised exception is an `error` value carrying its message;
`has_opencv` is the module-level `HAS_OPENCV` flag (lines 16-21). -/
structure PreprocEnv where
  has_opencv : Bool
  toCV : PILImage → Except String PILImage
  clahe : PILImage → Except String PILImage
  denoise : PILImage → Except String PILImage
  threshold : PILImage → Except String PILImage
  sharpen : PILImage → Except String PILImage
  toPIL : PILImage → Except String PILImage

/-- The `preprocessing_info` dict built by `preprocess_image`: the ordered
`applied` technique list, the recorded `original_size`, and the
`techniques_count` entry that is only written on the fully successful
path (line 157). -/
structure PreprocInfo where
  applied : List String
  original_size : ℕ × ℕ
  techniques_count : Option ℕ
deriving DecidableEq, Repr

/-- One optional enhancement stage inside the `try` block of
`preprocess_image`: when enabled, apply the transform and append its
technique note to `applied`; a raised exception aborts the block, carrying
out the `applied` list accumulated so far. -/
def stage_step (enabled : Bool) (f : PILImage → Except String PILImage)
    (note : String) (s : PILImage × List String) :
    Except (List String × String) (PILImage × List String) :=
  if enabled then
    match f s.1 with
    | .ok img => .ok (img, s.2 ++ [note])
    | .error e => .error (s.2, e)
  else .ok s

/-- The body of the `try` block of `preprocess_image` (lines 80-159): CLAHE
when requested, then denoising, then thresholding, then sharpening whenever
at least one technique was applied, then conversion back to PIL RGB. -/
def run_stages (env : PreprocEnv) (img0 : PILImage)
    (use_clahe use_denoise use_threshold : Bool) :
    Except (List String × String) (PILImage × List String) := do
  let s1 ← stage_step use_clahe env.clahe
    "CLAHE (contrast enhancement)" (img0, [])
  let s2 ← stage_step use_denoise env.denoise
    "Denoising (bilateral filter - fast)" s1
  let s3 ← stage_step use_threshold env.threshold
    "Thresholding (binarization)" s2
  let s4 ← stage_step (decide (0 < s3.2.length)) env.sharpen "Sharpening" s3
  match env.toPIL s4.1 with
  | .ok pil => .ok (pil, s4.2)
  | .error e => .error (s4.2, e)

/-- `PDFProcessor.preprocess_image` (lines 45-166): short-circuits when
OpenCV is missing or no technique is requested; otherwise converts to
OpenCV format, runs the stage pipeline, and on any failure returns the
original image with an error note appended to the `applied` list. -/
def preprocess_image (env : PreprocEnv) (image : PILImage)
    (use_clahe use_denoise use_threshold : Bool) : PILImage × PreprocInfo :=
  let info0 : PreprocInfo := ⟨[], (image.width, image.height), none⟩
  if env.has_opencv = false then
    (image, { info0 with
      applied := ["Preprocessing unavailable (OpenCV not installed)"] })
  else if (use_clahe || use_denoise || use_threshold) = false then
    (image, info0)
  else
    match env.toCV image with
    | .error e => (image, { info0 with applied := ["Error: " ++ e] })
    | .ok img_cv =>
      match run_stages env img_cv use_clahe use_denoise use_threshold with
      | .ok s =>
        (s.1, { applied := s.2
                original_size := (image.width, image.height)
                techniques_count := some s.2.length })
      | .error es =>
        (image, { info0 with
          applied := es.1 ++ ["Error during preprocessing: " ++ es.2] })

/-- C6: `preprocess_image` is a total function (no exception escapes): with
OpenCV unavailable it returns the input image pixel-identically with exactly
one explanatory technique entry; with OpenCV available and no technique
requested it is the identity with an empty technique list; and on any
failure — of the conversion into OpenCV format or of any enhancement
stage — it returns the original unmodified image with an error note
appended to the technique list, so page processing continues. -/
theorem C6_preprocess (env : PreprocEnv) (image : PILImage) (uc ud ut : Bool) :
    (env.has_opencv = false →
      preprocess_image env image uc ud ut
        = (image, ⟨["Preprocessing unavailable (OpenCV not installed)"],
            (image.width, image.height), none⟩)
      ∧ (preprocess_image env image uc ud ut).2.applied.length = 1)
    ∧ (env.has_opencv = true → uc = false → ud = false → ut = false →
        preprocess_image env image uc ud ut
          = (image, ⟨[], (image.width, image.height), none⟩))
    ∧ (∀ e, env.has_opencv = true → (uc || ud || ut) = true →
        env.toCV image = .error e →
        preprocess_image env image uc ud ut
          = (image, ⟨["Error: " ++ e], (image.width, image.height), none⟩))
    ∧ (∀ img_cv applied e, env.has_opencv = true → (uc || ud || ut) = true →
        env.toCV image = .ok img_cv →
        run_stages env img_cv uc ud ut = .error (applied, e) →
        preprocess_image env image uc ud ut
          = (image, ⟨applied ++ ["Error during preprocessing: " ++ e],
              (image.width, image.height), none⟩)) := by
  refine ⟨?_, ?_, ?_, ?_⟩
  · intro h
    constructor <;> simp [preprocess_image, h]
  · intro h hc hd ht
    simp [preprocess_image, h, hc, hd, ht]
  · intro e h hflags htc
    simp [preprocess_image, h, hflags, htc]
  · intro img_cv applied e h hflags htc hrun
    simp [preprocess_image, h, hflags, htc, hrun]

/-- An environment whose every stage succeeds but with OpenCV missing. -/
def env_no_cv : PreprocEnv :=
  ⟨false, fun i => .ok i, fun i => .ok i, fun i => .ok i, fun i => .ok i,
   fun i => .ok i, fun i => .ok i⟩

/-- An environment with OpenCV present and every stage succeeding. -/
def env_ok : PreprocEnv :=
  ⟨true, fun i => .ok i, fun i => .ok i, fun i => .ok i, fun i => .ok i,
   fun i => .ok i, fun i => .ok i⟩

/-- An environment whose denoising stage raises. -/
def env_fail_denoise : PreprocEnv :=
  ⟨true, fun i => .ok i, fun i => .ok i, fun _ => .error "boom",
   fun i => .ok i, fun i => .ok i, fun i => .ok i⟩

/-- C6 witness: the unavailable, the all-disabled, and the failing-stage
scenarios at a concrete image and concrete environments. -/
theorem C6_preprocess_witness :
    env_no_cv.has_opencv = false
    ∧ preprocess_image env_no_cv test_img true false false
      = (test_img, ⟨["Preprocessing unavailable (OpenCV not installed)"],
          (100, 80), none⟩)
    ∧ preprocess_image env_ok test_img false false false
      = (test_img, ⟨[], (100, 80), none⟩)
    ∧ preprocess_image env_fail_denoise test_img true true false
      = (test_img, ⟨["CLAHE (contrast enhancement)",
          "Error during preprocessing: boom"], (100, 80), none⟩) :=
  ⟨rfl,
   ((C6_preprocess env_no_cv test_img true false false).1 rfl).1,
   (C6_preprocess env_ok test_img false false false).2.1 rfl rfl rfl rfl,
   (C6_preprocess env_fail_denoise test_img true true false).2.2.2
     test_img ["CLAHE (contrast enhancement)"] "boom" rfl rfl rfl rfl⟩

/-- The YOLO predictor `self.model.predict` as an external oracle. The
first argument is the call index, threaded through the orchestrator so
that predictor invocations can be counted; the remaining arguments are the
image and the `conf`/`iou`/`max_det` thresholds passed at each call site. -/
structure PredOracle where
  predict : ℕ → PILImage → ℚ → ℚ → ℕ → List Detection

/-- `PDFProcessor._detect_on_bottom_right_corner` (lines 329-365): extract
the bottom-right corner, run the predictor on the corner crop, filter to
the QR-code class (2) only, and — when any detection remains — translate
the coordinates by the crop offset. Returns the detections together with
the next predictor call index. -/
def _detect_on_bottom_right_corner (o : PredOracle) (n : ℕ) (image : PILImage)
    (conf_threshold iou_threshold : ℚ) (max_detections : ℕ)
    (corner_size : ℚ) : List Detection × ℕ :=
  let ex := _extract_bottom_right_corner image corner_size
  let corner_results :=
    o.predict n ex.1 conf_threshold iou_threshold max_detections
  let filtered := _filter_detections_by_class corner_results [2]
  let adjusted :=
    if filtered.isEmpty then filtered
    else _adjust_detection_coordinates filtered (ex.2.1 : ℤ) (ex.2.2 : ℤ)
  (adjusted, n + 1)

/-- `two_pass_mode = use_denoise or use_threshold` (line 406). -/
def two_pass_mode (use_denoise use_threshold : Bool) : Bool :=
  use_denoise || use_threshold

/-- The per-page detection phase of `PDFProcessor.process_pdf`
(lines 423-514): in two-pass mode, pass 1 predicts on the original
rasterized image, the full preprocessing pipeline is applied to the
original image, pass 2 detects QR codes on the bottom-right corner of the
preprocessed image (default 10% corner), and the two result sets are
merged; otherwise a single prediction runs on the (possibly
CLAHE-enhanced) image. Returns the page's detections together with the
next predictor call index. -/
def detect_page (o : PredOracle) (env : PreprocEnv)
    (use_clahe use_denoise use_threshold : Bool)
    (conf_threshold iou_threshold : ℚ) (max_detections : ℕ)
    (original_image : PILImage) (n : ℕ) : List Detection × ℕ :=
  if two_pass_mode use_denoise use_threshold then
    let results_pass1 :=
      o.predict n original_image conf_threshold iou_threshold max_detections
    let pp := preprocess_image env original_image
      use_clahe use_denoise use_threshold
    let pass2 := _detect_on_bottom_right_corner o (n + 1) pp.1
      conf_threshold iou_threshold max_detections default_corner_size
    (_merge_detections results_pass1 pass2.1, pass2.2)
  else
    let image_to_detect :=
      if use_clahe then
        (preprocess_image env original_image use_clahe false false).1
      else original_image
    (o.predict n image_to_detect conf_threshold iou_threshold max_detections,
     n + 1)

/-- C1: in two-pass mode (selected exactly when denoising or thresholding
is requested), pass 1 runs the predictor on the original unmodified page
image and pass 2 runs it on the bottom-right corner crop of the fully
preprocessed image, keeps only QR-class (2) detections and adds the
corner's `(x_offset, y_offset)` to each kept box; when pass 1 yields two
signature detections and pass 2 yields one corner QR detection, the merged
page set has exactly 3 detections and the QR detection equals pass 2's raw
box translated by the offset. -/
theorem C1_two_pass (o : PredOracle) (env : PreprocEnv)
    (uc ud ut : Bool) (conf iou : ℚ) (maxd : ℕ)
    (original_image : PILImage) (n : ℕ) (d1 d2 q : Detection)
    (h2p : two_pass_mode ud ut = true)
    (hp1 : o.predict n original_image conf iou maxd = [d1, d2])
    (hs1 : d1.cls = 0) (hs2 : d2.cls = 0)
    (hp2 : o.predict (n + 1)
        (_extract_bottom_right_corner
          (preprocess_image env original_image uc ud ut).1
          default_corner_size).1 conf iou maxd = [q])
    (hq : q.cls = 2) :
    (detect_page o env uc ud ut conf iou maxd original_image n).1
      = [d1, d2,
         { q with
           x1 := q.x1 + ((_extract_bottom_right_corner
              (preprocess_image env original_image uc ud ut).1
              default_corner_size).2.1 : ℚ)
           y1 := q.y1 + ((_extract_bottom_right_corner
              (preprocess_image env original_image uc ud ut).1
              default_corner_size).2.2 : ℚ)
           x2 := q.x2 + ((_extract_bottom_right_corner
              (preprocess_image env original_image uc ud ut).1
              default_corner_size).2.1 : ℚ)
           y2 := q.y2 + ((_extract_bottom_right_corner
              (preprocess_image env original_image uc ud ut).1
              default_corner_size).2.2 : ℚ) }]
    ∧ (detect_page o env uc ud ut conf iou maxd original_image n).1.length = 3
    ∧ (detect_page o env uc ud ut conf iou maxd original_image n).2 = n + 2 := by
  have hfilter : _filter_detections_by_class [q] [2] = [q] := by
    simp [_filter_detections_by_class, hq]
  have hmain : detect_page o env uc ud ut conf iou maxd original_image n
      = ([d1, d2,
          { q with
            x1 := q.x1 + ((_extract_bottom_right_corner
               (preprocess_image env original_image uc ud ut).1
               default_corner_size).2.1 : ℚ)
            y1 := q.y1 + ((_extract_bottom_right_corner
               (preprocess_image env original_image uc ud ut).1
               default_corner_size).2.2 : ℚ)
            x2 := q.x2 + ((_extract_bottom_right_corner
               (preprocess_image env original_image uc ud ut).1
               default_corner_size).2.1 : ℚ)
            y2 := q.y2 + ((_extract_bottom_right_corner
               (preprocess_image env original_image uc ud ut).1
               default_corner_size).2.2 : ℚ) }], n + 2) := by
    simp only [detect_page, h2p, if_true, _detect_on_bottom_right_corner]
    rw [hp1, hp2, hfilter]
    simp [adjust_eq_map, _merge_detections]
  refine ⟨by rw [hmain], by rw [hmain]; rfl, by rw [hmain]⟩

/-- C1 witness: a concrete oracle returning two signatures on pass 1 and
one QR box on the corner pass, with OpenCV absent so preprocessing is the
recorded identity. -/
theorem C1_two_pass_witness :
    two_pass_mode true false = true
    ∧ (detect_page
        ⟨fun k _ _ _ _ =>
          if k = 0 then
            [⟨10, 20, 30, 40, none, 9/10, 0⟩, ⟨50, 60, 70, 80, none, 8/10, 0⟩]
          else [⟨1, 2, 3, 4, none, 7/10, 2⟩]⟩
        env_no_cv true true false (1/2) (45/100) 100 test_img 0).1
      = [⟨10, 20, 30, 40, none, 9/10, 0⟩, ⟨50, 60, 70, 80, none, 8/10, 0⟩,
         ⟨1 + 90, 2 + 72, 3 + 90, 4 + 72, none, 7/10, 2⟩]
    ∧ (detect_page
        ⟨fun k _ _ _ _ =>
          if k = 0 then
            [⟨10, 20, 30, 40, none, 9/10, 0⟩, ⟨50, 60, 70, 80, none, 8/10, 0⟩]
          else [⟨1, 2, 3, 4, none, 7/10, 2⟩]⟩
        env_no_cv true true false (1/2) (45/100) 100 test_img 0).2 = 2 := by
  have h := C1_two_pass
    ⟨fun k _ _ _ _ =>
      if k = 0 then
        [⟨10, 20, 30, 40, none, 9/10, 0⟩, ⟨50, 60, 70, 80, none, 8/10, 0⟩]
      else [⟨1, 2, 3, 4, none, 7/10, 2⟩]⟩
    env_no_cv true true false (1/2) (45/100) 100 test_img 0
    ⟨10, 20, 30, 40, none, 9/10, 0⟩ ⟨50, 60, 70, 80, none, 8/10, 0⟩
    ⟨1, 2, 3, 4, none, 7/10, 2⟩
    rfl rfl rfl rfl rfl rfl
  refine ⟨rfl, ?_, h.2.2⟩
  rw [h.1]
  have hoff : (_extract_bottom_right_corner
      (preprocess_image env_no_cv test_img true true false).1
      default_corner_size).2.1 = 90
      ∧ (_extract_bottom_right_corner
      (preprocess_image env_no_cv test_img true true false).1
      default_corner_size).2.2 = 72 := by
    have hpp : (preprocess_image env_no_cv test_img true true false).1
        = test_img := rfl
    rw [hpp]
    have h3 := C3_extract_corner test_img default_corner_size
      (by norm_num [default_corner_size]) (by norm_num [default_corner_size])
    constructor
    · rw [h3.2.2.1, show (⌊(test_img.width : ℚ) * default_corner_size⌋ : ℤ) = 10
        by norm_num [test_img, default_corner_size]]
      rfl
    · rw [h3.2.2.2.1, show (⌊(test_img.height : ℚ) * default_corner_size⌋ : ℤ) = 8
        by norm_num [test_img, default_corner_size]]
      rfl
  rw [hoff.1, hoff.2]
  norm_num [Detection.mk.injEq]

/-- C9: single-pass mode is selected exactly when neither denoising nor
thresholding is requested (`two_pass_mode = use_denoise OR use_threshold`),
including the CLAHE-only configuration; the predictor is then invoked
exactly once per page — the call index advances by exactly 1 and the one
call is on the (possibly CLAHE-enhanced) page image. -/
theorem C9_single_pass (o : PredOracle) (env : PreprocEnv)
    (uc ud ut : Bool) (conf iou : ℚ) (maxd : ℕ)
    (original_image : PILImage) (n : ℕ)
    (h : two_pass_mode ud ut = false) :
    (ud = false ∧ ut = false)
    ∧ (detect_page o env uc ud ut conf iou maxd original_image n).2 = n + 1
    ∧ (detect_page o env uc ud ut conf iou maxd original_image n).1
      = o.predict n
          (if uc then (preprocess_image env original_image uc false false).1
           else original_image) conf iou maxd := by
  have hb : ud = false ∧ ut = false := by
    simpa [two_pass_mode] using h
  refine ⟨hb, ?_, ?_⟩ <;> simp [detect_page, h]

/-- C9 witness: CLAHE-only configuration on a concrete page; the call index
advances from 0 to 1. -/
theorem C9_single_pass_witness :
    two_pass_mode false false = false
    ∧ (detect_page ⟨fun _ _ _ _ _ => []⟩ env_ok true false false
        (1/2) (45/100) 100 test_img 0).2 = 0 + 1 :=
  ⟨rfl, (C9_single_pass ⟨fun _ _ _ _ _ => []⟩ env_ok true false false
    (1/2) (45/100) 100 test_img 0 rfl).2.1⟩

/-- Python `round(x, k)` on the rational model: round `x * 10^k` to the
nearest integer and divide back. (CPython rounds ties to even; Mathlib's
`round` rounds ties up — every property proved here is independent of the
tie rule.) -/
def roundTo (k : ℕ) (q : ℚ) : ℚ := ((round (q * 10 ^ k) : ℤ) : ℚ) / 10 ^ k

/-- The fixed rendering scale factor of `process_pdf` (`scale=2.0` at line
421, `scale_factor = 2.0` at line 522). -/
def scale_factor : ℚ := 2

/-- The document-space conversion of lines 541-545: divide the scaled pixel
coordinates by the scale factor and convert the two-corner box
`(x1, y1, x2, y2)` into origin+size form `(x, y, width, height)`. -/
def to_document_space (x1 y1 x2 y2 sf : ℚ) : ℚ × ℚ × ℚ × ℚ :=
  (x1 / sf, y1 / sf, (x2 - x1) / sf, (y2 - y1) / sf)

/-- The `category_map = {0: "signature", 1: "stamp", 2: "qr"}` of line 532
with the `"class_{id}"` fallback of line 537. -/
def category_of (cls_id : ℤ) : String :=
  if cls_id = 0 then "signature"
  else if cls_id = 1 then "stamp"
  else if cls_id = 2 then "qr"
  else "class_" ++ toString cls_id

/-- `self.class_names.get(cls_id, f"class_{cls_id}")` (line 536): the model's
class-name dict with the `"class_{id}"` fallback. -/
def class_name_of (class_names : List (ℤ × String)) (cls_id : ℤ) : String :=
  match class_names.lookup cls_id with
  | some s => s
  | none => "class_" ++ toString cls_id

/-- One annotation record of the per-page `annotations` list
(lines 549-565): `{annotation_id: {category, bbox{x, y, width, height},
area}}` with the bbox rounded to 2 decimals and the area (computed from the
unrounded width and height) rounded to 3 decimals. -/
structure AnnRecord where
  ann_id : String
  category : String
  x : ℚ
  y : ℚ
  width : ℚ
  height : ℚ
  area : ℚ
deriving DecidableEq, Repr

/-- Build the annotation record for one detection (lines 534-565):
`annotation_{counter}` as id, the category from `category_map`, the
document-space bbox rounded to 2 decimals, and the area rounded to 3. -/
def build_ann (counter : ℕ) (d : Detection) : AnnRecord :=
  let ds := to_document_space d.x1 d.y1 d.x2 d.y2 scale_factor
  { ann_id := "annotation_" ++ toString counter
    category := category_of d.cls
    x := roundTo 2 ds.1
    y := roundTo 2 ds.2.1
    width := roundTo 2 ds.2.2.1
    height := roundTo 2 ds.2.2.2
    area := roundTo 3 (ds.2.2.1 * ds.2.2.2) }

/-- `d[k] = d.get(k, 0) + 1` on an insertion-ordered Python dict modelled
as an association list without duplicate keys: increment the existing entry
in place, or append a new one with count 1. -/
def bump : List (String × ℕ) → String → List (String × ℕ)
  | [], k => [(k, 1)]
  | (a, c) :: rest, k =>
    if a = k then (a, c + 1) :: rest else (a, c) :: bump rest k

/-- The accumulator threaded through the per-detection loop of lines
534-568: the global annotation counter, the per-page class tally, the
document-level class tally, and the page's annotation list. -/
structure TallyOut where
  counter : ℕ
  page_classes : List (String × ℕ)
  dpc : List (String × ℕ)
  page_anns : List AnnRecord
deriving DecidableEq, Repr

/-- The per-detection loop of lines 534-568: for every detection build the
annotation record with the next sequential id, append it to the page's
annotation list, and bump both the per-page and the document-level class
tallies under the model class name. -/
def tally_dets (class_names : List (ℤ × String)) :
    List Detection → ℕ → List (String × ℕ) → List (String × ℕ) →
    List AnnRecord → TallyOut
  | [], counter, pc, dpc, anns => ⟨counter, pc, dpc, anns⟩
  | d :: rest, counter, pc, dpc, anns =>
    let cls_name := class_name_of class_names d.cls
    let ann := build_ann counter d
    tally_dets class_names rest (counter + 1)
      (bump pc cls_name) (bump dpc cls_name) (anns ++ [ann])

/-- One entry of `page_stats` (lines 586-590). -/
structure PageStat where
  page : ℕ
  detections : ℕ
  classes : List (String × ℕ)
deriving DecidableEq, Repr

/-- One value of the `annotations_output` dict (lines 572-579): the page's
annotation list and the original (unscaled, `int()`-truncated) page size. -/
structure PageAnns where
  annotations : List AnnRecord
  page_width : ℕ
  page_height : ℕ
deriving DecidableEq, Repr

/-- The mutable state of the page loop of `process_pdf` (lines 395-403 and
the per-page updates): the predictor call index, the global
`annotation_counter`, `total_detections`, `detections_per_class`,
`page_stats`, `annotations_output`, and the number of pages appended to
the output document. -/
structure PDFState where
  predN : ℕ
  ann_counter : ℕ
  total_detections : ℕ
  dpc : List (String × ℕ)
  page_stats : List PageStat
  anns_output : List (String × PageAnns)
  output_pages : ℕ
deriving Repr

/-- A source page as consumed by the loop: the rasterized image (from
`page_to_pil` at `scale=2.0`) and the original page rectangle's width and
height in document points (line 417-419). -/
structure SourcePage where
  image : PILImage
  rect_width : ℚ
  rect_height : ℚ

/-- The page loop of `process_pdf` (lines 413-590): per page, run the
detection phase, tally the detections into annotations and class counts,
record the page's stats and annotations, append one annotated page to the
output document, and advance to the next page. -/
def process_pages (o : PredOracle) (env : PreprocEnv)
    (use_clahe use_denoise use_threshold : Bool)
    (conf_threshold iou_threshold : ℚ) (max_detections : ℕ)
    (class_names : List (ℤ × String)) :
    List SourcePage → ℕ → PDFState → PDFState
  | [], _, st => st
  | pg :: rest, page_number, st =>
    let det := detect_page o env use_clahe use_denoise use_threshold
      conf_threshold iou_threshold max_detections pg.image st.predN
    let results := det.1
    let page_detections := results.length
    let out := tally_dets class_names results st.ann_counter [] st.dpc []
    let page_key := "page_" ++ toString (page_number + 1)
    let st1 : PDFState :=
      { predN := det.2
        ann_counter := out.counter
        total_detections := st.total_detections + page_detections
        dpc := out.dpc
        page_stats := st.page_stats
          ++ [⟨page_number + 1, page_detections, out.page_classes⟩]
        anns_output := st.anns_output
          ++ [(page_key, ⟨out.page_anns,
               (⌊pg.rect_width⌋).toNat, (⌊pg.rect_height⌋).toNat⟩)]
        output_pages := st.output_pages + 1 }
    process_pages o env use_clahe use_denoise use_threshold
      conf_threshold iou_threshold max_detections class_names
      rest (page_number + 1) st1

/-- The report returned by `process_pdf` (lines 602-625), restricted to the
fields the loop computes: the `annotations` structure keyed by `page_N`,
`total_pages`, `total_detections`, `detections_per_class`, `page_stats`,
the two-pass flag of the `preprocessing` block, the thresholds block, and
the number of pages written to the output PDF. -/
structure Report where
  anns_output : List (String × PageAnns)
  total_pages : ℕ
  total_detections : ℕ
  dpc : List (String × ℕ)
  page_stats : List PageStat
  two_pass : Bool
  conf_threshold : ℚ
  iou_threshold : ℚ
  max_detections : ℕ
  output_pages : ℕ
deriving Repr

/-- `PDFProcessor.process_pdf` (lines 367-625): initialize the counters
(`annotation_counter = 1`, line 403), run the page loop over all source
pages, and assemble the report. -/
def process_pdf (o : PredOracle) (env : PreprocEnv)
    (use_clahe use_denoise use_threshold : Bool)
    (conf_threshold iou_threshold : ℚ) (max_detections : ℕ)
    (class_names : List (ℤ × String)) (pages : List SourcePage) : Report :=
  let st := process_pages o env use_clahe use_denoise use_threshold
    conf_threshold iou_threshold max_detections class_names
    pages 0 ⟨0, 1, 0, [], [], [], 0⟩
  { anns_output := st.anns_output
    total_pages := pages.length
    total_detections := st.total_detections
    dpc := st.dpc
    page_stats := st.page_stats
    two_pass := two_pass_mode use_denoise use_threshold
    conf_threshold := conf_threshold
    iou_threshold := iou_threshold
    max_detections := max_detections
    output_pages := st.output_pages }

lemma roundTo_abs (k : ℕ) (q : ℚ) : |roundTo k q - q| ≤ 1 / (2 * 10 ^ k) := by
  unfold roundTo
  have h := abs_sub_round (q * 10 ^ k)
  rw [abs_sub_comm] at h
  have h10 : (0 : ℚ) < 10 ^ k := by positivity
  have heq : ((round (q * 10 ^ k) : ℤ) : ℚ) / 10 ^ k - q
      = (((round (q * 10 ^ k) : ℤ) : ℚ) - q * 10 ^ k) / 10 ^ k := by
    field_simp
    ring
  rw [heq, abs_div, abs_of_pos h10, div_le_div_iff h10 (by positivity)]
  calc |((round (q * 10 ^ k) : ℤ) : ℚ) - q * 10 ^ k| * (2 * 10 ^ k)
      ≤ (1 / 2) * (2 * 10 ^ k) :=
        mul_le_mul_of_nonneg_right h (by positivity)
    _ = 1 * 10 ^ k := by ring

/-- C7: the annotation bbox is the document-space conversion — every pixel
coordinate divided by the scale factor 2.0, two-corner form converted to
origin+size form — rounded to 2 decimals, with area = width × height
(unrounded) rounded to 3 decimals; multiplying each reported coordinate
back by the scale factor reproduces the original box coordinate within
0.01. -/
theorem C7_document_space (d : Detection) (counter : ℕ) :
    (build_ann counter d).x = roundTo 2 (d.x1 / scale_factor)
    ∧ (build_ann counter d).y = roundTo 2 (d.y1 / scale_factor)
    ∧ (build_ann counter d).width = roundTo 2 ((d.x2 - d.x1) / scale_factor)
    ∧ (build_ann counter d).height = roundTo 2 ((d.y2 - d.y1) / scale_factor)
    ∧ (build_ann counter d).area
        = roundTo 3 ((d.x2 - d.x1) / scale_factor
            * ((d.y2 - d.y1) / scale_factor))
    ∧ scale_factor = 2
    ∧ |(build_ann counter d).x * scale_factor - d.x1| ≤ 1 / 100
    ∧ |(build_ann counter d).y * scale_factor - d.y1| ≤ 1 / 100
    ∧ |(build_ann counter d).width * scale_factor - (d.x2 - d.x1)| ≤ 1 / 100
    ∧ |(build_ann counter d).height * scale_factor - (d.y2 - d.y1)|
        ≤ 1 / 100 := by
  have key : ∀ q : ℚ, |roundTo 2 (q / 2) * 2 - q| ≤ 1 / 100 := by
    intro q
    have h2 := roundTo_abs 2 (q / 2)
    norm_num at h2
    have h3 : |roundTo 2 (q / 2) * 2 - q| = |roundTo 2 (q / 2) - q / 2| * 2 := by
      rw [show roundTo 2 (q / 2) * 2 - q = (roundTo 2 (q / 2) - q / 2) * 2 by
        ring, abs_mul]
      norm_num
    rw [h3]
    linarith
  exact ⟨rfl, rfl, rfl, rfl, rfl, rfl,
    key d.x1, key d.y1, key (d.x2 - d.x1), key (d.y2 - d.y1)⟩

lemma detect_page_empty (o : PredOracle) (env : PreprocEnv)
    (uc ud ut : Bool) (conf iou : ℚ) (maxd : ℕ) (img : PILImage) (n : ℕ)
    (h : ∀ k im, o.predict k im conf iou maxd = []) :
    (detect_page o env uc ud ut conf iou maxd img n).1 = [] := by
  unfold detect_page
  cases htp : two_pass_mode ud ut with
  | true =>
    simp [h, _detect_on_bottom_right_corner, _filter_detections_by_class,
      _merge_detections]
  | false => simp [h]

/-- C8: for a 1-page document whose predictor yields zero detections at the
given thresholds, the report has `total_detections = 0`, `page_stats` equal
to the single entry `{page: 1, detections: 0, classes: {}}`, an empty
annotation list under `page_1`, and the output PDF receives exactly one
page. -/
theorem C8_zero_detections (o : PredOracle) (env : PreprocEnv)
    (uc ud ut : Bool) (conf iou : ℚ) (maxd : ℕ)
    (class_names : List (ℤ × String)) (pg : SourcePage)
    (h : ∀ k im, o.predict k im conf iou maxd = []) :
    (process_pdf o env uc ud ut conf iou maxd class_names
        [pg]).total_detections = 0
    ∧ (process_pdf o env uc ud ut conf iou maxd class_names [pg]).page_stats
        = [⟨1, 0, []⟩]
    ∧ (process_pdf o env uc ud ut conf iou maxd class_names
        [pg]).anns_output.map (fun p => (p.1, p.2.annotations))
        = [("page_1", [])]
    ∧ (process_pdf o env uc ud ut conf iou maxd class_names
        [pg]).output_pages = 1
    ∧ (process_pdf o env uc ud ut conf iou maxd class_names
        [pg]).total_pages = 1 := by
  have hd := detect_page_empty o env uc ud ut conf iou maxd pg.image 0 h
  unfold process_pdf
  simp only [process_pages, hd]
  simp [tally_dets]
  rfl

/-- C8 witness: a predictor that never detects anything, on one concrete
612×792-point page. -/
theorem C8_zero_detections_witness :
    (∀ k im, PredOracle.predict ⟨fun _ _ _ _ _ => []⟩ k im (1/2) (45/100) 100
        = [])
    ∧ (process_pdf ⟨fun _ _ _ _ _ => []⟩ env_ok false false false
        (1/2) (45/100) 100 [(0, "signature"), (1, "stamp"), (2, "qr_code")]
        [⟨test_img, 612, 792⟩]).total_detections = 0
    ∧ (process_pdf ⟨fun _ _ _ _ _ => []⟩ env_ok false false false
        (1/2) (45/100) 100 [(0, "signature"), (1, "stamp"), (2, "qr_code")]
        [⟨test_img, 612, 792⟩]).page_stats = [⟨1, 0, []⟩]
    ∧ (process_pdf ⟨fun _ _ _ _ _ => []⟩ env_ok false false false
        (1/2) (45/100) 100 [(0, "signature"), (1, "stamp"), (2, "qr_code")]
        [⟨test_img, 612, 792⟩]).output_pages = 1 := by
  have h := C8_zero_detections ⟨fun _ _ _ _ _ => []⟩ env_ok false false false
    (1/2) (45/100) 100 [(0, "signature"), (1, "stamp"), (2, "qr_code")]
    ⟨test_img, 612, 792⟩ (fun _ _ => rfl)
  exact ⟨fun _ _ => rfl, h.1, h.2.1, h.2.2.2.1⟩

/-- Sum of the counts of a class tally (the values of a Python dict of
counters). -/
def tally_sum (m : List (String × ℕ)) : ℕ := (m.map Prod.snd).sum

/-- Total number of annotation records across all pages of the
`annotations_output` structure. -/
def total_ann_count (out : List (String × PageAnns)) : ℕ :=
  (out.map (fun p => p.2.annotations.length)).sum

/-- Sum of the per-page `detections` counts of `page_stats`. -/
def page_det_sum (stats : List PageStat) : ℕ :=
  (stats.map PageStat.detections).sum

/-- All annotation ids of the report, in page order then detection
order. -/
def all_ann_ids (out : List (String × PageAnns)) : List String :=
  (out.map (fun p => p.2.annotations.map AnnRecord.ann_id)).flatten

/-- The id sequence `annotation_{start}, …, annotation_{start+n-1}`. -/
def ids_from (start n : ℕ) : List String :=
  (List.range n).map (fun i => "annotation_" ++ toString (start + i))

lemma bump_sum (m : List (String × ℕ)) (k : String) :
    tally_sum (bump m k) = tally_sum m + 1 := by
  induction m with
  | nil => simp [bump, tally_sum]
  | cons a rest ih =>
    obtain ⟨s, c⟩ := a
    by_cases hsk : s = k <;> simp [bump, tally_sum, hsk] <;>
      simp [tally_sum] at ih <;> omega

lemma ids_from_succ (s n : ℕ) :
    ids_from s (n + 1) = ("annotation_" ++ toString s) :: ids_from (s + 1) n := by
  unfold ids_from
  rw [List.range_succ_eq_map, List.map_cons, List.map_map, Nat.add_zero]
  congr 1
  apply List.map_congr_left
  intro i _
  show "annotation_" ++ toString (s + (i + 1))
      = "annotation_" ++ toString (s + 1 + i)
  rw [show s + (i + 1) = s + 1 + i by omega]

lemma ids_from_append (s m n : ℕ) :
    ids_from s m ++ ids_from (s + m) n = ids_from s (m + n) := by
  induction m generalizing s with
  | zero => simp [ids_from]
  | succ m ih =>
    rw [show m + 1 + n = (m + n) + 1 by omega, ids_from_succ, ids_from_succ,
      List.cons_append, show s + (m + 1) = (s + 1) + m by omega, ih]

lemma tally_dets_spec (cn : List (ℤ × String)) (ds : List Detection) :
    ∀ (counter : ℕ) (pc dpc : List (String × ℕ)) (anns : List AnnRecord),
      (tally_dets cn ds counter pc dpc anns).counter = counter + ds.length
      ∧ tally_sum (tally_dets cn ds counter pc dpc anns).dpc
          = tally_sum dpc + ds.length
      ∧ (tally_dets cn ds counter pc dpc anns).page_anns.length
          = anns.length + ds.length
      ∧ (tally_dets cn ds counter pc dpc anns).page_anns.map AnnRecord.ann_id
          = anns.map AnnRecord.ann_id ++ ids_from counter ds.length := by
  induction ds with
  | nil =>
    intro counter pc dpc anns
    simp [tally_dets, ids_from]
  | cons d rest ih =>
    intro counter pc dpc anns
    obtain ⟨h1, h2, h3, h4⟩ := ih (counter + 1)
      (bump pc (class_name_of cn d.cls)) (bump dpc (class_name_of cn d.cls))
      (anns ++ [build_ann counter d])
    simp only [tally_dets]
    refine ⟨?_, ?_, ?_, ?_⟩
    · rw [h1]; simp; omega
    · rw [h2, bump_sum]; simp; omega
    · rw [h3]; simp; omega
    · simp only [List.length_cons]
      rw [h4, ids_from_succ]
      simp [build_ann]

/-- The loop invariant of `process_pages`: the annotation counter runs one
ahead of the running total, and the four tallies — the total, the class
tally, the annotation count, and the page-stat sum — agree, with the ids
issued so far being exactly `annotation_1 … annotation_total`. -/
def report_inv (st : PDFState) : Prop :=
  st.ann_counter = st.total_detections + 1
  ∧ tally_sum st.dpc = st.total_detections
  ∧ total_ann_count st.anns_output = st.total_detections
  ∧ page_det_sum st.page_stats = st.total_detections
  ∧ all_ann_ids st.anns_output = ids_from 1 st.total_detections

lemma process_pages_inv (o : PredOracle) (env : PreprocEnv)
    (uc ud ut : Bool) (conf iou : ℚ) (maxd : ℕ) (cn : List (ℤ × String)) :
    ∀ (pages : List SourcePage) (pn : ℕ) (st : PDFState),
      report_inv st →
      report_inv (process_pages o env uc ud ut conf iou maxd cn pages pn st) := by
  intro pages
  induction pages with
  | nil =>
    intro pn st h
    simpa only [process_pages] using h
  | cons pg rest ih =>
    intro pn st h
    obtain ⟨hc, hdpc, hanns, hps, hids⟩ := h
    obtain ⟨t1, t2, t3, t4⟩ := tally_dets_spec cn
      (detect_page o env uc ud ut conf iou maxd pg.image st.predN).1
      st.ann_counter [] st.dpc []
    simp only [process_pages]
    apply ih
    refine ⟨?_, ?_, ?_, ?_, ?_⟩
    · show (tally_dets cn _ st.ann_counter [] st.dpc []).counter
        = st.total_detections
          + (detect_page o env uc ud ut conf iou maxd pg.image st.predN).1.length
          + 1
      rw [t1]; omega
    · show tally_sum (tally_dets cn _ st.ann_counter [] st.dpc []).dpc
        = st.total_detections
          + (detect_page o env uc ud ut conf iou maxd pg.image st.predN).1.length
      rw [t2]; omega
    · show total_ann_count (st.anns_output ++ _) = _
      simp only [total_ann_count, List.map_append, List.sum_append]
      simp only [total_ann_count] at hanns
      simp [t3, hanns]
    · show page_det_sum (st.page_stats ++ _) = _
      simp only [page_det_sum, List.map_append, List.sum_append]
      simp only [page_det_sum] at hps
      simp [hps]
    · show all_ann_ids (st.anns_output ++ [("page_" ++ toString (pn + 1),
          ⟨(tally_dets cn
              (detect_page o env uc ud ut conf iou maxd pg.image st.predN).1
              st.ann_counter [] st.dpc []).page_anns,
            (⌊pg.rect_width⌋).toNat, (⌊pg.rect_height⌋).toNat⟩)])
        = ids_from 1 (st.total_detections
            + (detect_page o env uc ud ut conf iou maxd pg.image
                st.predN).1.length)
      simp only [all_ann_ids, List.map_append, List.flatten_append,
        List.map_cons, List.map_nil, List.flatten_cons, List.flatten_nil,
        List.append_nil]
      simp only [all_ann_ids] at hids
      rw [hids, t4]
      simp only [List.map_nil, List.nil_append]
      rw [hc, show st.total_detections + 1 = 1 + st.total_detections by omega,
        ids_from_append]

/-- C10: every report is internally consistent — `total_detections` equals
the sum of the `detections` fields over `page_stats`, the total number of
annotation records across all pages, and the sum of the
`detections_per_class` values; and the annotation identifiers are exactly
`annotation_1` through `annotation_N` (N = total_detections), assigned
sequentially with no gaps in page order then detection order. -/
theorem C10_report_consistency (o : PredOracle) (env : PreprocEnv)
    (uc ud ut : Bool) (conf iou : ℚ) (maxd : ℕ)
    (cn : List (ℤ × String)) (pages : List SourcePage) :
    (process_pdf o env uc ud ut conf iou maxd cn pages).total_detections
        = page_det_sum
          (process_pdf o env uc ud ut conf iou maxd cn pages).page_stats
    ∧ (process_pdf o env uc ud ut conf iou maxd cn pages).total_detections
        = total_ann_count
          (process_pdf o env uc ud ut conf iou maxd cn pages).anns_output
    ∧ (process_pdf o env uc ud ut conf iou maxd cn pages).total_detections
        = tally_sum (process_pdf o env uc ud ut conf iou maxd cn pages).dpc
    ∧ all_ann_ids (process_pdf o env uc ud ut conf iou maxd cn pages).anns_output
        = ids_from 1
          (process_pdf o env uc ud ut conf iou maxd cn pages).total_detections := by
  have h := process_pages_inv o env uc ud ut conf iou maxd cn pages 0
    ⟨0, 1, 0, [], [], [], 0⟩
    ⟨rfl, rfl, rfl, rfl, by simp [all_ann_ids, ids_from]⟩
  obtain ⟨h1, h2, h3, h4, h5⟩ := h
  exact ⟨h4.symm, h3.symm, h2.symm, h5⟩
